import Mathlib

/-!
Shallow embedding of the incremental token-tracking and layer-cache engine of
`packages/plugin-utils/src/createUtils.ts` (vite-plugin-windicss).

The mutable closure state of `createUtils` (the six token sets, the per-layer
metadata record `layers`, the `layerStylesMap`, the `completions` cache) is
modelled as an explicit state record `UtilsState`; the resolved options, the
tag constants and the external collaborators (the windicss `Processor`'s
`interpret`/`preflight`, stylesheet serialisation and sorting) are gathered in
an environment record `Env` and treated as opaque parameters, as the spec
places them out of scope.  Machine side effects that the claims do not touch
(debug logging, the `onBeforeGenerate`/`onGenerated` hooks, file scanning) are
omitted; `Date.now()` is passed in as an explicit timestamp argument.
-/

namespace Windi

/-- The three CSS layers, `SupportedLayers` in the source. -/
inductive LayerName
  | base
  | utilities
  | components
deriving DecidableEq, Repr

/-- The string form of a layer name, as it occurs in a style node's
`meta.type` field. -/
def LayerName.str : LayerName → String
  | .base => "base"
  | .utilities => "utilities"
  | .components => "components"

/-- Per-layer cache metadata, `LayerMeta` in the source: the memoised CSS text
and the last invalidation timestamp. -/
structure LayerMeta where
  cssCache : Option String
  timestamp : Option Nat
deriving DecidableEq, Repr

/-- A fresh `LayerMeta`, as produced by `layers.base = {}` in `clearCache`. -/
def emptyMeta : LayerMeta := { cssCache := none, timestamp := none }

/-- A compiled style node.  The source treats `Style` objects as opaque except
for the layer tag `meta.type`; `content` stands for the rest of the node. -/
structure Style where
  layer : String
  content : Nat
deriving DecidableEq, Repr

/-- The `layerStylesMap : Map<string, Style[]>`, embedded as an association
list with JavaScript `Map` semantics: `set` overwrites an existing key in
place and appends a new key at the end, and `values()` iterates in insertion
order. -/
abbrev StyleMap := List (String × List Style)

/-- `Map.get`. -/
def mapGet (m : StyleMap) (k : String) : Option (List Style) :=
  match m with
  | [] => none
  | (k0, v) :: rest => if k0 = k then some v else mapGet rest k

/-- `Map.set`: replace in place, or append at the end. -/
def mapSet (m : StyleMap) (k : String) (v : List Style) : StyleMap :=
  match m with
  | [] => [(k, v)]
  | (k0, v0) :: rest => if k0 = k then (k0, v) :: rest else (k0, v0) :: mapSet rest k v

/-- `Map.values()`, in insertion order. -/
def mapValues (m : StyleMap) : List (List Style) := m.map Prod.snd

/-- The result of the external compiler's `interpret` capability: the subset
of tokens that compiled successfully, and the produced style nodes
(`result.styleSheet.children`). -/
structure InterpretResult where
  success : List String
  nodes : List Style

/-- Resolved options (`ResolvedOptions`), the constants of `constants.ts`
(`preflightTags`, `htmlTags`) and the external collaborators, as far as the
embedded operations consult them.  `interpret` receives the pending set
directly (the source joins it into a string first); `preflight` receives
`none` for the include-all mode (the source passes `undefined`) or the
pending tag set (the source encodes it as tag markup); `buildSheet` stands
for `StyleSheet.build` under a given prefixer flag and `sortStyles` for
`StyleSheet.sort`. -/
structure Env where
  blocklist : Finset String
  safelist : Finset String
  preflightSafelist : Finset String
  preflightBlocklist : Finset String
  tagAlias : String → Option String
  enablePreflight : Bool
  includeAll : Bool
  includeBase : Bool
  includeGlobal : Bool
  includePlugin : Bool
  sortUtilities : Bool
  prefixer : Bool
  preflightTags : Finset String
  htmlTags : Finset String
  interpret : Finset String → InterpretResult
  preflight : Option (Finset String) → Bool → Bool → Bool → List Style
  buildSheet : Bool → List Style → String
  sortStyles : List Style → List Style

/-- The mutable closure state of `createUtils`. -/
structure UtilsState where
  classesGenerated : Finset String
  classesPending : Finset String
  tagsGenerated : Finset String
  tagsPending : Finset String
  tagsAvailable : Finset String
  attrsGenerated : Finset String
  layerBase : LayerMeta
  layerUtilities : LayerMeta
  layerComponents : LayerMeta
  layerStylesMap : StyleMap
  completions : Option Nat

/-- The state right after `createUtils` allocates its sets and maps: all
empty. -/
def initialState : UtilsState :=
  { classesGenerated := ∅
    classesPending := ∅
    tagsGenerated := ∅
    tagsPending := ∅
    tagsAvailable := ∅
    attrsGenerated := ∅
    layerBase := emptyMeta
    layerUtilities := emptyMeta
    layerComponents := emptyMeta
    layerStylesMap := []
    completions := none }

/-- Read the `layers` record at a layer name. -/
def UtilsState.layerMeta (σ : UtilsState) : LayerName → LayerMeta
  | .base => σ.layerBase
  | .utilities => σ.layerUtilities
  | .components => σ.layerComponents

/-- Write the `layers` record at a layer name. -/
def setLayerMeta (σ : UtilsState) (L : LayerName) (m : LayerMeta) : UtilsState :=
  match L with
  | .base => { σ with layerBase := m }
  | .utilities => { σ with layerUtilities := m }
  | .components => { σ with layerComponents := m }

/-- Modelled from the spec: the helper `include(set, values)` of `utils.ts`
(not under `src/`) adds every element of `values` to `set`. -/
def includeSet (s t : Finset String) : Finset String := s ∪ t

/-- Modelled from the spec: the helper `exclude(set, values)` of `utils.ts`
(not under `src/`) removes every element of `values` from `set`. -/
def excludeSet (s t : Finset String) : Finset String := s \ t

/-- One iteration of the `classes.forEach` loop in `addClasses`: skip the
token if it is empty, already generated, already pending or blocklisted,
otherwise insert it into `classesPending` and set the changed flag. -/
def addClassToken (env : Env) (p : UtilsState × Bool) (i : String) : UtilsState × Bool :=
  if i = "" ∨ i ∈ p.1.classesGenerated ∨ i ∈ p.1.classesPending ∨ i ∈ env.blocklist then p
  else ({ p.1 with classesPending := insert i p.1.classesPending }, true)

/-- `addClasses(classes)`: returns the updated state and the changed flag. -/
def addClasses (env : Env) (σ : UtilsState) (classes : List String) : UtilsState × Bool :=
  classes.foldl (addClassToken env) (σ, false)

/-- One iteration of the `tags.forEach` loop in `addTags`: if the tag is not
currently available, resolve it through the alias table (the source looks up
`options.preflightOptions.alias[kebabCase(tag)]`, folded here into
`env.tagAlias`; a missing entry yields `undefined`, which passes neither the
blocklist test nor the availability test, hence `none` skips the tag); skip
blocklisted tags; move an available, not-yet-pending tag from
`tagsAvailable` to `tagsPending` and set the changed flag. -/
def addTagToken (env : Env) (p : UtilsState × Bool) (tag : String) : UtilsState × Bool :=
  match (if tag ∈ p.1.tagsAvailable then some tag else env.tagAlias tag) with
  | none => p
  | some t =>
    if t ∈ env.preflightBlocklist then p
    else if t ∈ p.1.tagsAvailable ∧ t ∉ p.1.tagsPending then
      ({ p.1 with
          tagsPending := insert t p.1.tagsPending
          tagsAvailable := p.1.tagsAvailable.erase t }, true)
    else p

/-- `addTags(tags)`: returns the updated state and the changed flag. -/
def addTags (env : Env) (σ : UtilsState) (tags : List String) : UtilsState × Bool :=
  tags.foldl (addTagToken env) (σ, false)

/-- `clearCache(clearAll)`: reset the three `LayerMeta` records and the
completions cache; on a full clear empty the pending sets and
`tagsAvailable`, otherwise re-queue the generated tokens (and the preflight
tags) into the pending sets and re-include `htmlTags` into `tagsAvailable`;
in both modes add the safelists to the pending sets, remove the preflight
tags and the preflight safelist from `tagsAvailable`, and empty the
generated sets.  `preflightTags`/`htmlTags` come from `constants.ts` (not
under `src/`) and are opaque `Env` fields here. -/
def clearCache (env : Env) (σ : UtilsState) (clearAll : Bool) : UtilsState :=
  let σ1 : UtilsState :=
    { σ with
        layerBase := emptyMeta
        layerUtilities := emptyMeta
        layerComponents := emptyMeta
        completions := none }
  let σ2 : UtilsState :=
    if clearAll then
      { σ1 with classesPending := ∅, tagsPending := ∅, tagsAvailable := ∅ }
    else
      { σ1 with
          classesPending := includeSet σ1.classesPending σ1.classesGenerated
          tagsPending := includeSet (includeSet σ1.tagsPending σ1.tagsGenerated) env.preflightTags
          tagsAvailable := includeSet σ1.tagsAvailable env.htmlTags }
  { σ2 with
      classesPending := includeSet σ2.classesPending env.safelist
      tagsPending := includeSet σ2.tagsPending env.preflightSafelist
      tagsAvailable := excludeSet (excludeSet σ2.tagsAvailable env.preflightTags) env.preflightSafelist
      classesGenerated := ∅
      tagsGenerated := ∅
      attrsGenerated := ∅ }

/-- The set of layer tags occurring in a list of style nodes
(`styles.forEach(i => changedLayers.add(i.meta.type))`). -/
def layersOf (styles : List Style) : Finset String :=
  styles.foldl (fun s i => insert i.layer s) ∅

/-- The `changedLayers` set computed by `updateLayers`: the layers present in
the new nodes, plus — in replace mode — the layers present in the previous
contribution stored under the same key. -/
def changedLayersOf (σ : UtilsState) (styles : List Style) (filepath : String)
    (replaceFlag : Bool) : Finset String :=
  layersOf styles ∪
    (if replaceFlag then layersOf ((mapGet σ.layerStylesMap filepath).getD []) else ∅)

/-- The `for (const name of changedLayers)` loop of `updateLayers`: for each
of the three supported layers whose tag is in `changed`, stamp the timestamp
and drop the cached CSS (a tag outside the record is skipped by the
`if (layer)` guard, which the restriction to the three fields models). -/
def invalidateLayers (σ : UtilsState) (changed : Finset String) (ts : Nat) : UtilsState :=
  let upd : LayerName → LayerMeta → LayerMeta := fun L m =>
    if L.str ∈ changed then { cssCache := none, timestamp := some ts } else m
  { σ with
      layerBase := upd .base σ.layerBase
      layerUtilities := upd .utilities σ.layerUtilities
      layerComponents := upd .components σ.layerComponents }

/-- `updateLayers(styles, filepath, replace)`, with `Date.now()` passed in as
`ts`: compute the changed layers, store the new contribution (overwrite in
replace mode, append otherwise), and invalidate the changed layers. -/
def updateLayers (σ : UtilsState) (styles : List Style) (filepath : String)
    (replaceFlag : Bool) (ts : Nat) : UtilsState :=
  let changed := changedLayersOf σ styles filepath replaceFlag
  let m :=
    if replaceFlag then mapSet σ.layerStylesMap filepath styles
    else
      mapSet σ.layerStylesMap filepath
        (((mapGet σ.layerStylesMap filepath).getD []) ++ styles)
  invalidateLayers { σ with layerStylesMap := m } changed ts

/-- The node list `buildLayerCss` feeds into the fresh `StyleSheet`: all
contributions across all keys, flattened, filtered to the nodes whose
`meta.type` equals the requested layer. -/
def layerNodes (σ : UtilsState) (name : LayerName) : List Style :=
  ((mapValues σ.layerStylesMap).flatMap (fun i => i)).filter (fun i => i.layer = name.str)

/-- The banner comment prepended to a layer's CSS text. -/
def layerBanner (name : LayerName) : String :=
  "/* windicss layer " ++ name.str ++ " */\n"

/-- The optional deterministic sort (`style.sort()` under
`options.sortUtilities`). -/
def sortOpt (env : Env) (nodes : List Style) : List Style :=
  if env.sortUtilities then env.sortStyles nodes else nodes

/-- `buildLayerCss(name)`: on a cache hit return the memoised text and leave
the state unchanged; on a miss build the filtered node list, optionally sort
it, serialise it under the configured prefixer flag, prepend the banner,
memoise and return.  The third component records whether the cache-miss
branch (the recomputation) ran. -/
def buildLayerCss (env : Env) (σ : UtilsState) (name : LayerName) :
    String × UtilsState × Bool :=
  match (σ.layerMeta name).cssCache with
  | some c => (c, σ, false)
  | none =>
    let text := layerBanner name ++ env.buildSheet env.prefixer (sortOpt env (layerNodes σ name))
    (text,
      setLayerMeta σ name
        { cssCache := some text, timestamp := (σ.layerMeta name).timestamp },
      true)

/-- The class half of `buildPendingStyles`: if `classesPending` is non-empty,
submit it to `interpret`; if the success list is non-empty, append the
produced nodes under the synthetic key `__classes`, include the successful
tokens into `classesGenerated`, and clear the whole `classesPending` set. -/
def classesStep (env : Env) (ts : Nat) (σ : UtilsState) : UtilsState :=
  if σ.classesPending ≠ ∅ then
    let result := env.interpret σ.classesPending
    if result.success ≠ [] then
      let σ1 := updateLayers σ result.nodes "__classes" false ts
      { σ1 with
          classesGenerated := includeSet σ1.classesGenerated result.success.toFinset
          classesPending := ∅ }
    else σ
  else σ

/-- The preflight half of `buildPendingStyles`: under `enablePreflight`, when
`includeAll` is set or `tagsPending` is non-empty, invoke the preflight
capability, append the nodes under the synthetic key `__preflights`, include
the pending tags into `tagsGenerated`, and clear `tagsPending`. -/
def preflightStep (env : Env) (ts : Nat) (σ : UtilsState) : UtilsState :=
  if env.enablePreflight then
    if env.includeAll ∨ σ.tagsPending ≠ ∅ then
      let nodes :=
        env.preflight (if env.includeAll then none else some σ.tagsPending)
          env.includeBase env.includeGlobal env.includePlugin
      let σ1 := updateLayers σ nodes "__preflights" false ts
      { σ1 with
          tagsGenerated := includeSet σ1.tagsGenerated σ1.tagsPending
          tagsPending := ∅ }
    else σ
  else σ

/-- `buildPendingStyles()`: the class step followed by the preflight step
(the `onBeforeGenerate`/`onGenerated` hooks are observational and omitted). -/
def buildPendingStyles (env : Env) (ts : Nat) (σ : UtilsState) : UtilsState :=
  preflightStep env ts (classesStep env ts σ)

/-- `generateCSS(layer)` for a given layer, in the already-initialised,
scanning-disabled configuration: run `buildPendingStyles`, then return that
layer's CSS together with the final state. -/
def generateCSS (env : Env) (ts : Nat) (σ : UtilsState) (layer : LayerName) :
    String × UtilsState :=
  let σ1 := buildPendingStyles env ts σ
  let r := buildLayerCss env σ1 layer
  (r.1, r.2.1)

/-- A registry operation, for stating invariants over arbitrary call
sequences. -/
inductive RegOp
  | addClassesOp (tokens : List String)
  | addTagsOp (tags : List String)
  | clearCacheOp (full : Bool)

/-- Apply one registry operation to a state, discarding the changed flag. -/
def applyRegOp (env : Env) (σ : UtilsState) : RegOp → UtilsState
  | .addClassesOp tokens => (addClasses env σ tokens).1
  | .addTagsOp tags => (addTags env σ tags).1
  | .clearCacheOp full => clearCache env σ full

/-- Apply a sequence of registry operations from left to right. -/
def applyRegOps (env : Env) (σ : UtilsState) : List RegOp → UtilsState
  | [] => σ
  | op :: rest => applyRegOps env (applyRegOp env σ op) rest

/-- Apply a sequence of `addTags` calls from left to right. -/
def runAddTags (env : Env) (σ : UtilsState) : List (List String) → UtilsState
  | [] => σ
  | tags :: rest => runAddTags env (addTags env σ tags).1 rest

/-- The known tag universe: every tag the non-full `clearCache` can place in
one of the three tag sets. -/
def tagUniverse (env : Env) : Finset String :=
  env.htmlTags ∪ env.preflightTags ∪ env.preflightSafelist

/-- The state of the initialisation coordinator: the published processor
instance, the single in-flight initialisation promise (identified by a
number), and how many times `_init` has been started.  The body of
`ensureInit` runs atomically up to returning the promise — it contains no
`await` before the return — so under the cooperative single-threaded
scheduling of §5 concurrent callers interleave only at whole-call
granularity, which this step function captures. -/
structure InitState where
  processor : Option Nat
  promiseInit : Option Nat
  runs : Nat

/-- The coordinator state of a fresh `createUtils` call. -/
def initialInitState : InitState :=
  { processor := none, promiseInit := none, runs := 0 }

/-- What a call to `ensureInit` hands back to its caller: the ready instance,
or the (single) in-flight promise. -/
inductive InitResult
  | ready (inst : Nat)
  | inflight (pid : Nat)
deriving DecidableEq, Repr

/-- `ensureInit()`: return the processor if present; otherwise return the
in-flight promise if present; otherwise start `_init`, remembering its
promise.  A fresh promise is identified by the run counter. -/
def ensureInit (σ : InitState) : InitResult × InitState :=
  match σ.processor with
  | some p => (.ready p, σ)
  | none =>
    match σ.promiseInit with
    | some pid => (.inflight pid, σ)
    | none =>
      (.inflight σ.runs,
        { σ with promiseInit := some σ.runs, runs := σ.runs + 1 })

/-- `init()`: unconditionally start a fresh `_init`, superseding the previous
promise for new callers. -/
def initOp (σ : InitState) : InitState :=
  { σ with promiseInit := some σ.runs, runs := σ.runs + 1 }

/-- The condition under which one iteration of the `addClasses` loop inserts
its token into `classesPending`: non-empty, not generated, not pending, not
blocklisted. -/
def classInsertable (env : Env) (σ : UtilsState) (t : String) : Prop :=
  t ≠ "" ∧ t ∉ σ.classesGenerated ∧ t ∉ σ.classesPending ∧ t ∉ env.blocklist

instance (env : Env) (σ : UtilsState) (t : String) :
    Decidable (classInsertable env σ t) := by
  unfold classInsertable
  infer_instance

/-- The partition property of the three tag sets: pairwise disjoint, and
their union is the known tag universe. -/
def tagPartitionInv (env : Env) (σ : UtilsState) : Prop :=
  Disjoint σ.tagsAvailable σ.tagsPending ∧
  Disjoint σ.tagsAvailable σ.tagsGenerated ∧
  Disjoint σ.tagsPending σ.tagsGenerated ∧
  σ.tagsAvailable ∪ σ.tagsPending ∪ σ.tagsGenerated = tagUniverse env

/-- A concrete environment for witnesses and counterexamples: empty lists, a
one-tag universe, a compiler that always fails, trivial serialisation. -/
def env0 : Env :=
  { blocklist := ∅
    safelist := ∅
    preflightSafelist := ∅
    preflightBlocklist := ∅
    tagAlias := fun _ => none
    enablePreflight := true
    includeAll := false
    includeBase := true
    includeGlobal := true
    includePlugin := true
    sortUtilities := false
    prefixer := true
    preflightTags := ∅
    htmlTags := {"a"}
    interpret := fun _ => { success := [], nodes := [] }
    preflight := fun _ _ _ _ => []
    buildSheet := fun _ _ => ""
    sortStyles := fun l => l }

/-- The state reached by `clearCache(false); addTags(["a"]); clearCache(false)`
from the initial state under `env0`: the tag "a" was moved from `Available`
to `Pending`, and the second partial clear re-included it into `Available`
without removing it from `Pending`. -/
def stateC1 : UtilsState :=
  clearCache env0 (addTags env0 (clearCache env0 initialState false) ["a"]).1 false

/-- A variant of `env0` whose compiler succeeds on "p-4" and produces one
utilities node, for exercising the compiler bridge. -/
def env1 : Env :=
  { env0 with
      interpret := fun _ =>
        { success := ["p-4"], nodes := [{ layer := "utilities", content := 1 }] } }

/-- A state with pending classes "p-4" and "bad", of which the `env1`
compiler only compiles "p-4". -/
def stateC7 : UtilsState :=
  { initialState with classesPending := {"p-4", "bad"} }

/-- A variant of `env0` whose serialiser concatenates the content numbers of
the nodes it receives, making the node list visible in the output text. -/
def env8 : Env :=
  { env0 with buildSheet := fun _ l => String.join (l.map (fun s => Nat.repr s.content)) }

/-- A contribution store with interleaved contributions from two source keys
and two different layer tags. -/
def stateC8 : UtilsState :=
  { initialState with
      layerStylesMap :=
        [("f1", [{ layer := "utilities", content := 1 }, { layer := "base", content := 2 }]),
         ("f2", [{ layer := "utilities", content := 3 }])] }

/-! ## Helper lemmas -/

theorem mapGet_mapSet_self (m : StyleMap) (k : String) (v : List Style) :
    mapGet (mapSet m k v) k = some v := by
  induction m with
  | nil => simp [mapGet, mapSet]
  | cons hd tl ih =>
    obtain ⟨k0, v0⟩ := hd
    by_cases h : k0 = k
    · simp [mapGet, mapSet, h]
    · simp [mapGet, mapSet, h, ih]

theorem mapGet_mapSet_ne (m : StyleMap) (k k' : String) (v : List Style)
    (h : k' ≠ k) : mapGet (mapSet m k v) k' = mapGet m k' := by
  induction m with
  | nil => simp [mapGet, mapSet, Ne.symm h]
  | cons hd tl ih =>
    obtain ⟨k0, v0⟩ := hd
    by_cases h0 : k0 = k
    · subst h0
      simp [mapGet, mapSet, Ne.symm h]
    · simp [mapGet, mapSet, h0, ih]

theorem layerMeta_setLayerMeta_self (σ : UtilsState) (L : LayerName) (m : LayerMeta) :
    (setLayerMeta σ L m).layerMeta L = m := by
  cases L <;> rfl

theorem updateLayers_classesGenerated (σ : UtilsState) (styles : List Style)
    (fp : String) (r : Bool) (ts : Nat) :
    (updateLayers σ styles fp r ts).classesGenerated = σ.classesGenerated := rfl

theorem updateLayers_classesPending (σ : UtilsState) (styles : List Style)
    (fp : String) (r : Bool) (ts : Nat) :
    (updateLayers σ styles fp r ts).classesPending = σ.classesPending := rfl

theorem updateLayers_tagsGenerated (σ : UtilsState) (styles : List Style)
    (fp : String) (r : Bool) (ts : Nat) :
    (updateLayers σ styles fp r ts).tagsGenerated = σ.tagsGenerated := rfl

theorem updateLayers_tagsPending (σ : UtilsState) (styles : List Style)
    (fp : String) (r : Bool) (ts : Nat) :
    (updateLayers σ styles fp r ts).tagsPending = σ.tagsPending := rfl

theorem updateLayers_map (σ : UtilsState) (styles : List Style)
    (fp : String) (r : Bool) (ts : Nat) :
    (updateLayers σ styles fp r ts).layerStylesMap =
      if r then mapSet σ.layerStylesMap fp styles
      else
        mapSet σ.layerStylesMap fp
          (((mapGet σ.layerStylesMap fp).getD []) ++ styles) := rfl

theorem updateLayers_layerMeta (σ : UtilsState) (styles : List Style)
    (fp : String) (r : Bool) (ts : Nat) (L : LayerName) :
    (updateLayers σ styles fp r ts).layerMeta L =
      if L.str ∈ changedLayersOf σ styles fp r then
        { cssCache := none, timestamp := some ts }
      else σ.layerMeta L := by
  cases L <;> rfl

theorem classInsertable_insert (env : Env) (σ : UtilsState) (t a : String) :
    classInsertable env { σ with classesPending := insert t σ.classesPending } a ↔
      classInsertable env σ a ∧ a ≠ t := by
  unfold classInsertable
  simp only [Finset.mem_insert, not_or]
  tauto

theorem addClassToken_skip (env : Env) (σ : UtilsState) (b : Bool) (t : String)
    (hc : t = "" ∨ t ∈ σ.classesGenerated ∨ t ∈ σ.classesPending ∨ t ∈ env.blocklist) :
    addClassToken env (σ, b) t = (σ, b) := by
  simp only [addClassToken]
  rw [if_pos hc]

theorem addClassToken_ins (env : Env) (σ : UtilsState) (b : Bool) (t : String)
    (hin : classInsertable env σ t) :
    addClassToken env (σ, b) t =
      ({ σ with classesPending := insert t σ.classesPending }, true) := by
  obtain ⟨h1, h2, h3, h4⟩ := hin
  simp only [addClassToken]
  rw [if_neg]
  rintro (h | h | h | h)
  · exact h1 h
  · exact h2 h
  · exact h3 h
  · exact h4 h

theorem addClassesAux_flag_mono (env : Env) (l : List String) :
    ∀ σ : UtilsState, (l.foldl (addClassToken env) (σ, true)).2 = true := by
  induction l with
  | nil => intro σ; rfl
  | cons t rest ih =>
    intro σ
    rw [List.foldl_cons]
    by_cases hc : t = "" ∨ t ∈ σ.classesGenerated ∨ t ∈ σ.classesPending ∨ t ∈ env.blocklist
    · rw [addClassToken_skip env σ true t hc]
      exact ih σ
    · push_neg at hc
      rw [addClassToken_ins env σ true t ⟨hc.1, hc.2.1, hc.2.2.1, hc.2.2.2⟩]
      exact ih _

theorem addClassesAux_classesGenerated (env : Env) (l : List String) :
    ∀ (σ : UtilsState) (b : Bool),
      (l.foldl (addClassToken env) (σ, b)).1.classesGenerated = σ.classesGenerated := by
  induction l with
  | nil => intro σ b; rfl
  | cons t rest ih =>
    intro σ b
    rw [List.foldl_cons]
    by_cases hc : t = "" ∨ t ∈ σ.classesGenerated ∨ t ∈ σ.classesPending ∨ t ∈ env.blocklist
    · rw [addClassToken_skip env σ b t hc]
      exact ih σ b
    · push_neg at hc
      rw [addClassToken_ins env σ b t ⟨hc.1, hc.2.1, hc.2.2.1, hc.2.2.2⟩]
      exact ih _ _

theorem addClassesAux_pending_mem (env : Env) (l : List String) :
    ∀ (σ : UtilsState) (b : Bool) (a : String),
      a ∈ (l.foldl (addClassToken env) (σ, b)).1.classesPending ↔
        a ∈ σ.classesPending ∨ (a ∈ l ∧ classInsertable env σ a) := by
  induction l with
  | nil => intro σ b a; simp
  | cons t rest ih =>
    intro σ b a
    rw [List.foldl_cons]
    by_cases hc : t = "" ∨ t ∈ σ.classesGenerated ∨ t ∈ σ.classesPending ∨ t ∈ env.blocklist
    · rw [addClassToken_skip env σ b t hc, ih]
      have hni : ¬ classInsertable env σ t := by
        unfold classInsertable
        tauto
      simp only [List.mem_cons]
      constructor
      · rintro (h | ⟨hr, hi⟩)
        · exact Or.inl h
        · exact Or.inr ⟨Or.inr hr, hi⟩
      · rintro (h | ⟨rfl | hr, hi⟩)
        · exact Or.inl h
        · exact absurd hi hni
        · exact Or.inr ⟨hr, hi⟩
    · push_neg at hc
      have hin : classInsertable env σ t := ⟨hc.1, hc.2.1, hc.2.2.1, hc.2.2.2⟩
      rw [addClassToken_ins env σ b t hin, ih]
      simp only [classInsertable_insert, Finset.mem_insert, List.mem_cons]
      constructor
      · rintro ((rfl | hp) | ⟨hr, hi, hne⟩)
        · exact Or.inr ⟨Or.inl rfl, hin⟩
        · exact Or.inl hp
        · exact Or.inr ⟨Or.inr hr, hi⟩
      · rintro (hp | ⟨rfl | hr, hi⟩)
        · exact Or.inl (Or.inr hp)
        · exact Or.inl (Or.inl rfl)
        · by_cases hat : a = t
          · exact Or.inl (Or.inl hat)
          · exact Or.inr ⟨hr, hi, hat⟩

theorem addClassesAux_flag (env : Env) (l : List String) :
    ∀ (σ : UtilsState) (b : Bool),
      (l.foldl (addClassToken env) (σ, b)).2 = true ↔
        b = true ∨ ∃ t ∈ l, classInsertable env σ t := by
  induction l with
  | nil => intro σ b; simp
  | cons t rest ih =>
    intro σ b
    rw [List.foldl_cons]
    by_cases hc : t = "" ∨ t ∈ σ.classesGenerated ∨ t ∈ σ.classesPending ∨ t ∈ env.blocklist
    · rw [addClassToken_skip env σ b t hc, ih]
      have hni : ¬ classInsertable env σ t := by
        unfold classInsertable
        tauto
      simp only [List.mem_cons]
      constructor
      · rintro (hb | ⟨u, hu, hiu⟩)
        · exact Or.inl hb
        · exact Or.inr ⟨u, Or.inr hu, hiu⟩
      · rintro (hb | ⟨u, rfl | hu, hiu⟩)
        · exact Or.inl hb
        · exact absurd hiu hni
        · exact Or.inr ⟨u, hu, hiu⟩
    · push_neg at hc
      have hin : classInsertable env σ t := ⟨hc.1, hc.2.1, hc.2.2.1, hc.2.2.2⟩
      rw [addClassToken_ins env σ b t hin]
      rw [addClassesAux_flag_mono env rest _]
      simp only [List.mem_cons, true_iff]
      exact Or.inr ⟨t, Or.inl rfl, hin⟩

theorem addTagToken_classes (env : Env) (p : UtilsState × Bool) (tag : String) :
    (addTagToken env p tag).1.classesGenerated = p.1.classesGenerated ∧
    (addTagToken env p tag).1.classesPending = p.1.classesPending := by
  unfold addTagToken
  split
  · exact ⟨rfl, rfl⟩
  · split
    · exact ⟨rfl, rfl⟩
    · split
      · exact ⟨rfl, rfl⟩
      · exact ⟨rfl, rfl⟩

theorem addTagsAux_classes (env : Env) (l : List String) :
    ∀ p : UtilsState × Bool,
      (l.foldl (addTagToken env) p).1.classesGenerated = p.1.classesGenerated ∧
      (l.foldl (addTagToken env) p).1.classesPending = p.1.classesPending := by
  induction l with
  | nil => intro p; exact ⟨rfl, rfl⟩
  | cons t rest ih =>
    intro p
    rw [List.foldl_cons]
    obtain ⟨hg, hp⟩ := ih (addTagToken env p t)
    obtain ⟨hg0, hp0⟩ := addTagToken_classes env p t
    exact ⟨hg.trans hg0, hp.trans hp0⟩

theorem addTagToken_partition (env : Env) (p : UtilsState × Bool) (tag : String)
    (h : tagPartitionInv env p.1) : tagPartitionInv env (addTagToken env p tag).1 := by
  obtain ⟨h1, h2, h3, h4⟩ := h
  unfold addTagToken
  split
  · exact ⟨h1, h2, h3, h4⟩
  · rename_i t ht
    split
    · exact ⟨h1, h2, h3, h4⟩
    · split
      · rename_i hcond
        obtain ⟨hav, hnp⟩ := hcond
        refine ⟨?_, ?_, ?_, ?_⟩
        · rw [Finset.disjoint_left]
          intro a ha hmem
          rw [Finset.mem_erase] at ha
          rcases Finset.mem_insert.mp hmem with rfl | hp
          · exact ha.1 rfl
          · exact Finset.disjoint_left.mp h1 ha.2 hp
        · exact Disjoint.mono_left (Finset.erase_subset t _) h2
        · rw [Finset.disjoint_left]
          intro a ha hmem
          rcases Finset.mem_insert.mp ha with rfl | hp
          · exact Finset.disjoint_left.mp h2 hav hmem
          · exact Finset.disjoint_left.mp h3 hp hmem
        · rw [← h4]
          ext a
          simp only [Finset.mem_union, Finset.mem_erase, Finset.mem_insert]
          by_cases hat : a = t
          · subst hat
            simp [hav]
          · simp [hat]
      · exact ⟨h1, h2, h3, h4⟩

theorem addTagsAux_partition (env : Env) (l : List String) :
    ∀ p : UtilsState × Bool, tagPartitionInv env p.1 →
      tagPartitionInv env (l.foldl (addTagToken env) p).1 := by
  induction l with
  | nil => intro p h; exact h
  | cons t rest ih =>
    intro p h
    rw [List.foldl_cons]
    exact ih _ (addTagToken_partition env p t h)

theorem runAddTags_partition (env : Env) (calls : List (List String)) :
    ∀ σ : UtilsState, tagPartitionInv env σ →
      tagPartitionInv env (runAddTags env σ calls) := by
  induction calls with
  | nil => intro σ h; exact h
  | cons ts rest ih =>
    intro σ h
    exact ih _ (addTagsAux_partition env ts (σ, false) h)

theorem clearCache_classesGenerated_empty (env : Env) (σ : UtilsState) (f : Bool) :
    (clearCache env σ f).classesGenerated = ∅ := rfl

theorem clearCache_initial_partition (env : Env) :
    tagPartitionInv env (clearCache env initialState false) := by
  unfold tagPartitionInv clearCache initialState includeSet excludeSet tagUniverse
  simp only [if_neg Bool.false_ne_true, Finset.empty_union]
  refine ⟨?_, ?_, ?_, ?_⟩
  · rw [Finset.disjoint_left]
    intro a ha hmem
    simp only [Finset.mem_sdiff] at ha
    rcases Finset.mem_union.mp hmem with hp | hs
    · exact ha.1.2 hp
    · exact ha.2 hs
  · simp
  · simp
  · ext a
    simp only [Finset.mem_union, Finset.mem_sdiff, Finset.not_mem_empty, or_false]
    tauto

theorem applyRegOp_class_disjoint (env : Env) (σ : UtilsState) (op : RegOp)
    (h : Disjoint σ.classesGenerated σ.classesPending) :
    Disjoint (applyRegOp env σ op).classesGenerated (applyRegOp env σ op).classesPending := by
  cases op with
  | addClassesOp tokens =>
    simp only [applyRegOp, addClasses]
    rw [Finset.disjoint_left]
    intro a ha hmem
    rw [addClassesAux_classesGenerated env tokens σ false] at ha
    rcases (addClassesAux_pending_mem env tokens σ false a).mp hmem with hp | ⟨_, hi⟩
    · exact Finset.disjoint_left.mp h ha hp
    · exact hi.2.1 ha
  | addTagsOp tags =>
    simp only [applyRegOp, addTags]
    obtain ⟨hg, hp⟩ := addTagsAux_classes env tags (σ, false)
    rw [hg, hp]
    exact h
  | clearCacheOp f =>
    simp only [applyRegOp]
    rw [clearCache_classesGenerated_empty]
    simp

/-! ## Claim theorems -/

/-- Claim C1 is refuted: the sequence `clearCache(false); addTags(["a"]);
clearCache(false)` from the initial state, under a configuration whose tag
universe is the single HTML tag "a" with empty alias table, blocklists and
safelists, leaves "a" both in `tagsAvailable` and in `tagsPending`: the
non-full `clearCache` re-includes all of `htmlTags` into `Available` without
removing the tags that are still `Pending`, so the sets are not pairwise
disjoint. -/
theorem tag_partition_counterexample :
    "a" ∈ stateC1.tagsAvailable ∧ "a" ∈ stateC1.tagsPending ∧
      ¬ Disjoint stateC1.tagsAvailable stateC1.tagsPending := by
  have h1 : "a" ∈ stateC1.tagsAvailable := by decide
  have h2 : "a" ∈ stateC1.tagsPending := by decide
  exact ⟨h1, h2, fun h => Finset.disjoint_left.mp h h1 h2⟩

/-- Claim C1 (amended): starting from the initial state, after a single
`clearCache(full=false)` followed by any sequence of `addTags` calls, the tag
sets `Available`, `Pending`, `Generated` are pairwise disjoint and their
union equals the known tag universe `htmlTags ∪ preflightTags ∪ preflight
safelist`.  The blocklist does not shrink this universe (blocklisted
preflight or safelist tags are still queued by `clearCache`), and
interleaving a further `clearCache(full=false)` after an `addTags` move can
re-add a pending tag to `Available`, breaking disjointness. -/
theorem tag_sets_partition_after_initial_clear (env : Env) (calls : List (List String)) :
    tagPartitionInv env (runAddTags env (clearCache env initialState false) calls) :=
  runAddTags_partition env calls _ (clearCache_initial_partition env)

/-- Claim C2: after any sequence of registry calls (`addClasses`, `addTags`,
`clearCache` in either mode) starting from the initial state — in particular
after any sequence of `addClasses`/`clearCache` calls — the class token sets
`Generated` and `Pending` are disjoint. -/
theorem class_sets_disjoint_after_ops (env : Env) (ops : List RegOp) :
    Disjoint (applyRegOps env initialState ops).classesGenerated
      (applyRegOps env initialState ops).classesPending := by
  suffices h : ∀ (l : List RegOp) (σ : UtilsState),
      Disjoint σ.classesGenerated σ.classesPending →
      Disjoint (applyRegOps env σ l).classesGenerated (applyRegOps env σ l).classesPending by
    exact h ops initialState (by simp [initialState])
  intro l
  induction l with
  | nil => intro σ hσ; exact hσ
  | cons op rest ih =>
    intro σ hσ
    exact ih _ (applyRegOp_class_disjoint env σ op hσ)

/-- Claim C3: `addClasses` inserts into `Pending` exactly the tokens that are
non-empty, not generated, not pending and not blocklisted; it returns true
iff at least one token was inserted; and for any insertable token `t`,
calling `addClasses([t])` twice in a row returns true then false, the second
call leaving the state unchanged. -/
theorem addClasses_spec (env : Env) (σ : UtilsState) (tokens : List String) :
    (addClasses env σ tokens).1.classesPending =
        σ.classesPending ∪ tokens.toFinset.filter (fun t => classInsertable env σ t) ∧
    ((addClasses env σ tokens).2 = true ↔ ∃ t ∈ tokens, classInsertable env σ t) ∧
    ∀ t : String, classInsertable env σ t →
      (addClasses env σ [t]).2 = true ∧
      (addClasses env (addClasses env σ [t]).1 [t]).2 = false ∧
      (addClasses env (addClasses env σ [t]).1 [t]).1 = (addClasses env σ [t]).1 := by
  refine ⟨?_, ?_, ?_⟩
  · unfold addClasses
    ext a
    rw [Finset.mem_union, Finset.mem_filter, List.mem_toFinset]
    exact addClassesAux_pending_mem env tokens σ false a
  · unfold addClasses
    rw [addClassesAux_flag env tokens σ false]
    simp
  · intro t hin
    have h1 : addClasses env σ [t] =
        ({ σ with classesPending := insert t σ.classesPending }, true) := by
      unfold addClasses
      rw [List.foldl_cons, addClassToken_ins env σ false t hin, List.foldl_nil]
    have h2 : addClasses env { σ with classesPending := insert t σ.classesPending } [t] =
        ({ σ with classesPending := insert t σ.classesPending }, false) := by
      unfold addClasses
      rw [List.foldl_cons,
        addClassToken_skip env _ false t
          (Or.inr (Or.inr (Or.inl (Finset.mem_insert_self t _)))),
        List.foldl_nil]
    refine ⟨by rw [h1], ?_, ?_⟩
    · rw [h1]
      show (addClasses env { σ with classesPending := insert t σ.classesPending } [t]).2 = false
      rw [h2]
    · rw [h1]
      show (addClasses env { σ with classesPending := insert t σ.classesPending } [t]).1 =
        ({ σ with classesPending := insert t σ.classesPending }, true).1
      rw [h2]

/-- Witness for C3 at a concrete input: under `env0`, adding "p-4" to the
fresh state reports a change, and adding it again does not. -/
theorem addClasses_spec_witness :
    (addClasses env0 initialState ["p-4"]).2 = true ∧
    (addClasses env0 (addClasses env0 initialState ["p-4"]).1 ["p-4"]).2 = false :=
  ⟨((addClasses_spec env0 initialState ["p-4"]).2.2 "p-4" (by decide)).1,
   ((addClasses_spec env0 initialState ["p-4"]).2.2 "p-4" (by decide)).2.1⟩

theorem clearCache_false_classesPending (env : Env) (σ : UtilsState) :
    (clearCache env σ false).classesPending =
      (σ.classesPending ∪ σ.classesGenerated) ∪ env.safelist := rfl

theorem clearCache_false_tagsPending (env : Env) (σ : UtilsState) :
    (clearCache env σ false).tagsPending =
      ((σ.tagsPending ∪ σ.tagsGenerated) ∪ env.preflightTags) ∪ env.preflightSafelist := rfl

theorem clearCache_false_tagsAvailable (env : Env) (σ : UtilsState) :
    (clearCache env σ false).tagsAvailable =
      ((σ.tagsAvailable ∪ env.htmlTags) \ env.preflightTags) \ env.preflightSafelist := rfl

/-- Claim C4: `clearCache(full=false)` re-queues every currently generated
class and tag into the respective pending set, empties both generated sets,
clears every layer's cached CSS and timestamp together with the completions
cache, repopulates `Available` with the known tag universe minus the
permanently preflighted tags and the configured preflight safelist, and
unconditionally adds the configured safelists to the pending sets.  The
hypothesis `tagsAvailable ⊆ htmlTags` holds in every reachable state: tags
enter `Available` only when `clearCache` includes `htmlTags` into it. -/
theorem clearCache_partial_spec (env : Env) (σ : UtilsState)
    (h : σ.tagsAvailable ⊆ env.htmlTags) :
    σ.classesGenerated ⊆ (clearCache env σ false).classesPending ∧
    σ.tagsGenerated ⊆ (clearCache env σ false).tagsPending ∧
    (clearCache env σ false).classesGenerated = ∅ ∧
    (clearCache env σ false).tagsGenerated = ∅ ∧
    (clearCache env σ false).layerBase = emptyMeta ∧
    (clearCache env σ false).layerUtilities = emptyMeta ∧
    (clearCache env σ false).layerComponents = emptyMeta ∧
    (clearCache env σ false).completions = none ∧
    (clearCache env σ false).tagsAvailable =
      excludeSet (excludeSet (tagUniverse env) env.preflightTags) env.preflightSafelist ∧
    env.safelist ⊆ (clearCache env σ false).classesPending ∧
    env.preflightSafelist ⊆ (clearCache env σ false).tagsPending := by
  refine ⟨?_, ?_, rfl, rfl, rfl, rfl, rfl, rfl, ?_, ?_, ?_⟩
  · rw [clearCache_false_classesPending]
    exact (Finset.subset_union_right).trans Finset.subset_union_left
  · rw [clearCache_false_tagsPending]
    exact ((Finset.subset_union_right).trans Finset.subset_union_left).trans
      Finset.subset_union_left
  · rw [clearCache_false_tagsAvailable]
    unfold excludeSet tagUniverse
    ext a
    have ha : a ∈ σ.tagsAvailable → a ∈ env.htmlTags := fun hx => h hx
    simp only [Finset.mem_sdiff, Finset.mem_union]
    tauto
  · rw [clearCache_false_classesPending]
    exact Finset.subset_union_right
  · rw [clearCache_false_tagsPending]
    exact Finset.subset_union_right

/-- Witness for C4 at a concrete input: from the initial state under `env0`
the partial clear empties the generated class set and repopulates
`Available`. -/
theorem clearCache_partial_spec_witness :
    (clearCache env0 initialState false).classesGenerated = ∅ ∧
    (clearCache env0 initialState false).tagsAvailable =
      excludeSet (excludeSet (tagUniverse env0) env0.preflightTags) env0.preflightSafelist :=
  ⟨(clearCache_partial_spec env0 initialState (by decide)).2.2.1,
   (clearCache_partial_spec env0 initialState (by decide)).2.2.2.2.2.2.2.2.1⟩

theorem updateLayers_replace_map (σ : UtilsState) (styles : List Style)
    (fp : String) (ts : Nat) :
    (updateLayers σ styles fp true ts).layerStylesMap =
      mapSet σ.layerStylesMap fp styles := rfl

theorem updateLayers_append_map (σ : UtilsState) (styles : List Style)
    (fp : String) (ts : Nat) :
    (updateLayers σ styles fp false ts).layerStylesMap =
      mapSet σ.layerStylesMap fp
        (((mapGet σ.layerStylesMap fp).getD []) ++ styles) := rfl

/-- Claim C5: `updateLayers` invalidates (clears the cached CSS of and
re-timestamps) exactly the layers in `changedLayersOf` — the union of the
layers present in the new nodes and, in replace mode, the layers of the
previous contribution under the key; the stored contribution is overwritten
in replace mode (so two successive replace-mode calls for one key keep only
the second call's nodes) and appended to otherwise; other keys are
untouched. -/
theorem updateLayers_spec (σ : UtilsState) (styles : List Style) (fp : String)
    (repl : Bool) (ts : Nat) :
    (∀ L : LayerName,
      (updateLayers σ styles fp repl ts).layerMeta L =
        if L.str ∈ changedLayersOf σ styles fp repl then
          { cssCache := none, timestamp := some ts }
        else σ.layerMeta L) ∧
    mapGet (updateLayers σ styles fp repl ts).layerStylesMap fp =
      some (if repl then styles else ((mapGet σ.layerStylesMap fp).getD []) ++ styles) ∧
    (∀ k : String, k ≠ fp →
      mapGet (updateLayers σ styles fp repl ts).layerStylesMap k =
        mapGet σ.layerStylesMap k) ∧
    (∀ (A B : List Style) (ts1 ts2 : Nat),
      mapGet (updateLayers (updateLayers σ A fp true ts1) B fp true ts2).layerStylesMap fp =
        some B) := by
  refine ⟨updateLayers_layerMeta σ styles fp repl ts, ?_, ?_, ?_⟩
  · rw [updateLayers_map]
    by_cases hr : repl
    · simp [hr, mapGet_mapSet_self]
    · simp [hr, mapGet_mapSet_self]
  · intro k hk
    rw [updateLayers_map]
    by_cases hr : repl <;> simp [hr, mapGet_mapSet_ne _ _ _ _ hk]
  · intro A B ts1 ts2
    rw [updateLayers_replace_map, updateLayers_replace_map]
    exact mapGet_mapSet_self _ _ _

/-- Witness for C5 at a concrete input: two successive replace-mode updates
for key "f1" keep only the second contribution, and an update under "f1"
leaves the contribution stored under "f2" unchanged. -/
theorem updateLayers_spec_witness :
    mapGet (updateLayers (updateLayers stateC8 [] "f1" true 1) [] "f1" true 2).layerStylesMap
        "f1" = some [] ∧
    mapGet (updateLayers stateC8 [] "f1" true 5).layerStylesMap "f2" =
      mapGet stateC8.layerStylesMap "f2" :=
  ⟨(updateLayers_spec stateC8 [] "f1" true 0).2.2.2 [] [] 1 2,
   (updateLayers_spec stateC8 [] "f1" true 5).2.2.1 "f2" (by decide)⟩

theorem buildLayerCss_hit (env : Env) (σ : UtilsState) (L : LayerName) (c : String)
    (hc : (σ.layerMeta L).cssCache = some c) :
    buildLayerCss env σ L = (c, σ, false) := by
  unfold buildLayerCss
  rw [hc]

theorem buildLayerCss_miss (env : Env) (σ : UtilsState) (L : LayerName)
    (hc : (σ.layerMeta L).cssCache = none) :
    buildLayerCss env σ L =
      (layerBanner L ++ env.buildSheet env.prefixer (sortOpt env (layerNodes σ L)),
       setLayerMeta σ L
         { cssCache := some (layerBanner L ++ env.buildSheet env.prefixer (sortOpt env (layerNodes σ L)))
           timestamp := (σ.layerMeta L).timestamp },
       true) := by
  unfold buildLayerCss
  rw [hc]

/-- Claim C6: when a layer's CSS is cached, `buildLayerCss` returns the
memoised text unchanged, leaves the state unchanged and does not run the
recomputation branch; after `updateLayers` touches layer `L` the cache is
empty, the next `buildLayerCss(L)` runs the recomputation branch (flagged in
the third component) and memoises its text, and a further call on the
resulting state returns the same text with the state unchanged and no
recomputation. -/
theorem buildLayerCss_cache_coherence (env : Env) (σ : UtilsState) (L : LayerName) :
    (∀ c : String, (σ.layerMeta L).cssCache = some c → buildLayerCss env σ L = (c, σ, false)) ∧
    ((σ.layerMeta L).cssCache = none →
      (buildLayerCss env σ L).2.2 = true ∧
      (((buildLayerCss env σ L).2.1).layerMeta L).cssCache = some (buildLayerCss env σ L).1 ∧
      buildLayerCss env (buildLayerCss env σ L).2.1 L =
        ((buildLayerCss env σ L).1, (buildLayerCss env σ L).2.1, false)) ∧
    (∀ (styles : List Style) (fp : String) (repl : Bool) (ts : Nat),
      L.str ∈ changedLayersOf σ styles fp repl →
      ((updateLayers σ styles fp repl ts).layerMeta L).cssCache = none) := by
  refine ⟨?_, ?_, ?_⟩
  · intro c hc
    exact buildLayerCss_hit env σ L c hc
  · intro hc
    have hb := buildLayerCss_miss env σ L hc
    have hcache : (((buildLayerCss env σ L).2.1).layerMeta L).cssCache =
        some (buildLayerCss env σ L).1 := by
      rw [hb]
      simp [layerMeta_setLayerMeta_self]
    refine ⟨by rw [hb], hcache, ?_⟩
    exact buildLayerCss_hit env _ L _ hcache
  · intro styles fp repl ts hmem
    rw [updateLayers_layerMeta, if_pos hmem]

/-- Witness for C6 at a concrete input: the caches of `stateC8` are empty, so
`buildLayerCss` for the utilities layer runs the recomputation branch and
memoises its text. -/
theorem buildLayerCss_cache_coherence_witness :
    (buildLayerCss env8 stateC8 LayerName.utilities).2.2 = true ∧
    (((buildLayerCss env8 stateC8 LayerName.utilities).2.1).layerMeta
        LayerName.utilities).cssCache =
      some (buildLayerCss env8 stateC8 LayerName.utilities).1 :=
  ⟨((buildLayerCss_cache_coherence env8 stateC8 LayerName.utilities).2.1 rfl).1,
   ((buildLayerCss_cache_coherence env8 stateC8 LayerName.utilities).2.1 rfl).2.1⟩

theorem preflightStep_classes (env : Env) (ts : Nat) (σ : UtilsState) :
    (preflightStep env ts σ).classesGenerated = σ.classesGenerated ∧
    (preflightStep env ts σ).classesPending = σ.classesPending ∧
    mapGet (preflightStep env ts σ).layerStylesMap "__classes" =
      mapGet σ.layerStylesMap "__classes" := by
  unfold preflightStep
  split
  · split
    · refine ⟨rfl, rfl, ?_⟩
      show mapGet (updateLayers σ _ "__preflights" false ts).layerStylesMap "__classes" = _
      rw [updateLayers_append_map]
      exact mapGet_mapSet_ne _ _ _ _ (by decide)
    · exact ⟨rfl, rfl, rfl⟩
  · exact ⟨rfl, rfl, rfl⟩

theorem classesStep_success (env : Env) (ts : Nat) (σ : UtilsState)
    (h1 : σ.classesPending ≠ ∅) (h2 : (env.interpret σ.classesPending).success ≠ []) :
    classesStep env ts σ =
      { updateLayers σ (env.interpret σ.classesPending).nodes "__classes" false ts with
          classesGenerated :=
            σ.classesGenerated ∪ (env.interpret σ.classesPending).success.toFinset
          classesPending := ∅ } := by
  unfold classesStep
  rw [if_pos h1]
  show (if (env.interpret σ.classesPending).success ≠ [] then _ else σ) = _
  rw [if_pos h2]
  rfl

/-- Claim C7: with a non-empty pending class set and a non-empty success
list from `interpret`, `buildPendingStyles` appends the produced style nodes
to the contribution stored under the synthetic `__classes` key (the
GeneratedClasses key), adds the successful tokens to the generated class
set, and clears the entire pending class set — including tokens the compiler
did not report as succeeded. -/
theorem buildPendingStyles_success (env : Env) (ts : Nat) (σ : UtilsState)
    (h1 : σ.classesPending ≠ ∅) (h2 : (env.interpret σ.classesPending).success ≠ []) :
    mapGet (buildPendingStyles env ts σ).layerStylesMap "__classes" =
      some (((mapGet σ.layerStylesMap "__classes").getD []) ++
        (env.interpret σ.classesPending).nodes) ∧
    (buildPendingStyles env ts σ).classesGenerated =
      σ.classesGenerated ∪ (env.interpret σ.classesPending).success.toFinset ∧
    (buildPendingStyles env ts σ).classesPending = ∅ := by
  unfold buildPendingStyles
  obtain ⟨hg, hp, hm⟩ := preflightStep_classes env ts (classesStep env ts σ)
  refine ⟨?_, ?_, ?_⟩
  · rw [hm, classesStep_success env ts σ h1 h2]
    show mapGet (updateLayers σ (env.interpret σ.classesPending).nodes
        "__classes" false ts).layerStylesMap "__classes" = _
    rw [updateLayers_append_map]
    exact mapGet_mapSet_self _ _ _
  · rw [hg, classesStep_success env ts σ h1 h2]
  · rw [hp, classesStep_success env ts σ h1 h2]

/-- Witness for C7 at a concrete input: under `env1`, whose compiler reports
only "p-4" out of the pending set `{"p-4", "bad"}` as succeeded,
`buildPendingStyles` clears the whole pending set and adds the success list
to the generated set. -/
theorem buildPendingStyles_success_witness :
    (buildPendingStyles env1 0 stateC7).classesPending = ∅ ∧
    (buildPendingStyles env1 0 stateC7).classesGenerated =
      stateC7.classesGenerated ∪ (env1.interpret stateC7.classesPending).success.toFinset :=
  ⟨(buildPendingStyles_success env1 0 stateC7 (by decide) (by decide)).2.2,
   (buildPendingStyles_success env1 0 stateC7 (by decide) (by decide)).2.1⟩

/-- Claim C10: with a non-empty pending class set, if `interpret` returns an
empty success list, the class-compilation step of `buildPendingStyles`
returns the state entirely unchanged — in particular the pending and
generated class sets, the `__classes` contribution and every layer's cache
metadata: total compilation failure is atomic for class state. -/
theorem classesStep_failure_atomic (env : Env) (ts : Nat) (σ : UtilsState)
    (h1 : σ.classesPending ≠ ∅) (h2 : (env.interpret σ.classesPending).success = []) :
    classesStep env ts σ = σ := by
  unfold classesStep
  rw [if_pos h1]
  show (if (env.interpret σ.classesPending).success ≠ [] then _ else σ) = σ
  rw [if_neg (fun hne => hne h2)]

/-- Witness for C10 at a concrete input: under `env0`, whose compiler always
reports an empty success list, the class step leaves the state with pending
classes `{"p-4", "bad"}` unchanged. -/
theorem classesStep_failure_atomic_witness :
    classesStep env0 0 stateC7 = stateC7 :=
  classesStep_failure_atomic env0 0 stateC7 (by decide) (by decide)

/-- Claim C8: on a cache miss, the text `buildLayerCss(L)` produces is the
banner plus the serialisation of exactly the stored nodes whose layer tag is
`L` (optionally sorted) — nodes contributed under a different layer tag, from
however many source keys, never reach the serialiser; an empty filtered set
yields the banner-only text when the serialiser maps the empty collection to
the empty string; and `generateCSS(L)` produces the same text from the state
`buildPendingStyles` leaves behind. -/
theorem buildLayerCss_filters_by_layer (env : Env) (σ : UtilsState) (L : LayerName)
    (hmiss : (σ.layerMeta L).cssCache = none) :
    (buildLayerCss env σ L).1 =
      layerBanner L ++ env.buildSheet env.prefixer (sortOpt env (layerNodes σ L)) ∧
    layerNodes σ L =
      ((mapValues σ.layerStylesMap).flatMap (fun i => i)).filter
        (fun i => i.layer = L.str) ∧
    (∀ s ∈ layerNodes σ L, s.layer = L.str) ∧
    (layerNodes σ L = [] → env.sortStyles [] = [] → (∀ b, env.buildSheet b [] = "") →
      (buildLayerCss env σ L).1 = layerBanner L ++ "") ∧
    (∀ (ts : Nat) (σ0 : UtilsState), buildPendingStyles env ts σ0 = σ →
      (generateCSS env ts σ0 L).1 =
        layerBanner L ++ env.buildSheet env.prefixer (sortOpt env (layerNodes σ L))) := by
  refine ⟨?_, rfl, ?_, ?_, ?_⟩
  · rw [buildLayerCss_miss env σ L hmiss]
  · intro s hs
    unfold layerNodes at hs
    have h := (List.mem_filter.mp hs).2
    simpa using h
  · intro h0 hs hb
    rw [buildLayerCss_miss env σ L hmiss]
    show layerBanner L ++ env.buildSheet env.prefixer (sortOpt env (layerNodes σ L)) =
      layerBanner L ++ ""
    rw [h0]
    unfold sortOpt
    by_cases hu : env.sortUtilities
    · rw [if_pos hu, hs, hb]
    · rw [if_neg hu, hb]
  · intro ts σ0 h
    show (buildLayerCss env (buildPendingStyles env ts σ0) L).1 = _
    rw [h, buildLayerCss_miss env σ L hmiss]

/-- Witness for C8 at a concrete input: in `stateC8`, whose store holds
utilities nodes 1 and 3 and a base node 2 under two source keys, the
utilities text is built from the utilities nodes alone. -/
theorem buildLayerCss_filters_by_layer_witness :
    (buildLayerCss env8 stateC8 LayerName.utilities).1 =
      layerBanner LayerName.utilities ++
        env8.buildSheet env8.prefixer (sortOpt env8 (layerNodes stateC8 LayerName.utilities)) :=
  (buildLayerCss_filters_by_layer env8 stateC8 LayerName.utilities rfl).1

/-- Claim C9: `ensureInit` returns the ready instance immediately when one
exists, otherwise returns the single in-flight initialisation if one exists,
otherwise starts one; two consecutive first calls with no resolution in
between — the only interleaving the cooperative single-threaded scheduling
allows, since the body of `ensureInit` suspends only after returning the
promise — receive the same in-flight promise, hence resolve to the same
instance, and the initialisation routine has started exactly once. -/
theorem ensureInit_single_flight :
    (∀ (σ : InitState) (p : Nat), σ.processor = some p →
      ensureInit σ = (InitResult.ready p, σ)) ∧
    (∀ (σ : InitState) (pid : Nat), σ.processor = none → σ.promiseInit = some pid →
      ensureInit σ = (InitResult.inflight pid, σ)) ∧
    ((ensureInit initialInitState).1 = InitResult.inflight 0 ∧
     (ensureInit (ensureInit initialInitState).2).1 = InitResult.inflight 0 ∧
     (ensureInit (ensureInit initialInitState).2).2 = (ensureInit initialInitState).2 ∧
     (ensureInit (ensureInit initialInitState).2).2.runs = 1) := by
  refine ⟨?_, ?_, rfl, rfl, rfl, rfl⟩
  · intro σ p h
    unfold ensureInit
    rw [h]
  · intro σ pid h1 h2
    unfold ensureInit
    rw [h1, h2]

/-- Witness for C9 at a concrete input: with a published instance 5,
`ensureInit` returns it and leaves the state unchanged. -/
theorem ensureInit_single_flight_witness :
    ensureInit { processor := some 5, promiseInit := none, runs := 3 } =
      (InitResult.ready 5, { processor := some 5, promiseInit := none, runs := 3 }) :=
  ensureInit_single_flight.1 { processor := some 5, promiseInit := none, runs := 3 } 5 rfl

end Windi
